import Mathlib

/-!
Shallow embedding of `src/index.ts` of vue-reactive-search-params.

The shared query state is a `URLSearchParams` object held in a shallow ref
(`_internal.searchParams`).  We model a `URLSearchParams` instance as an
ordered multimap `List (String × String)` together with a `spId : Nat`
modelling JavaScript object identity of the instance: an assignment of a
freshly constructed `URLSearchParams` (as in the popstate handler,
source line 27) produces a new identity, while the mutating methods
`set` / `delete` / `append` (source lines 190, 192, 327, 329) keep it.

`Sys` mirrors `_internal` (the shared ref's current object and the
`isListeningPopsate` flag) plus the window-level listener bookkeeping the
claims speak about: how many popstate listeners are live and which reactive
scopes carry a disposal hook registered by `listenPopstate`.
-/

/-- `URLSearchParams.get`: first value for `name`, or null. Source uses
`searchParams.get(name)` at lines 155 and 163. -/
def getParam (l : List (String × String)) (name : String) : Option String :=
  (l.find? (fun p => p.1 = name)).map (fun p => p.2)

/-- `URLSearchParams.getAll`: all values for `name` in order. Source uses
`searchParams.getAll(name)` at lines 293 and 301. -/
def getAllParams (l : List (String × String)) (name : String) : List String :=
  l.filterMap (fun p => if p.1 = name then some p.2 else none)

/-- `URLSearchParams.delete`: remove every pair whose key is `name`. -/
def deleteParam (l : List (String × String)) (name : String) : List (String × String) :=
  l.filter (fun p => p.1 ≠ name)

/-- `URLSearchParams.append`: add a pair at the end. -/
def appendParam (l : List (String × String)) (name value : String) : List (String × String) :=
  l ++ [(name, value)]

/-- `URLSearchParams.set`: replace the first occurrence of `name` in place and
drop the remaining occurrences; append at the end when absent. -/
def setParam : List (String × String) → String → String → List (String × String)
  | [], name, value => [(name, value)]
  | (k, w) :: rest, name, value =>
    if k = name then (name, value) :: deleteParam rest name
    else (k, w) :: setParam rest name value

/-- The process-wide state: the shared `URLSearchParams` object (contents plus
object identity `spId`), the `isListeningPopsate` flag of `_internal`, the
number of live window popstate listeners, and the reactive scopes on which
`listenPopstate` registered an `onScopeDispose` teardown hook. -/
structure Sys where
  spId : Nat
  searchParams : List (String × String)
  isListeningPopsate : Bool
  popstateListeners : Nat
  disposeHooks : List Nat
deriving Repr, DecidableEq

/-- The state at module load on the client: `searchParams` parsed from the
current URL, no listener installed yet. -/
def mkInitial (params : List (String × String)) : Sys :=
  { spId := 0
    searchParams := params
    isListeningPopsate := false
    popstateListeners := 0
    disposeHooks := [] }

/-- `listenPopstate` (source lines 22-38): bail out off-client or when the
flag is already set; otherwise set the flag, add one window popstate
listener, and, when a reactive scope is current, register a disposal hook on
that scope. `currentScope` models `getCurrentScope()`. -/
def listenPopstate (isClient : Bool) (currentScope : Option Nat) (s : Sys) : Sys :=
  if !isClient || s.isListeningPopsate then s
  else
    let s1 := { s with
      isListeningPopsate := true
      popstateListeners := s.popstateListeners + 1 }
    match currentScope with
    | some sc => { s1 with disposeHooks := s1.disposeHooks ++ [sc] }
    | none => s1

/-- The popstate handler (source lines 26-28): assigns a freshly constructed
`URLSearchParams` parsed from the current URL to the shared ref, so the
object identity changes. `newParams` is the parse of `window.location.search`. -/
def onPopstate (s : Sys) (newParams : List (String × String)) : Sys :=
  { s with spId := s.spId + 1, searchParams := newParams }

/-- Disposing a reactive scope runs every `onScopeDispose` hook registered on
it (source lines 33-36): each hook removes its captured popstate listener and
resets `isListeningPopsate` to false. -/
def disposeScope (sc : Nat) (s : Sys) : Sys :=
  let k := (s.disposeHooks.filter (fun h => h = sc)).length
  { s with
    popstateListeners := s.popstateListeners - k
    isListeningPopsate := if k = 0 then s.isListeningPopsate else false
    disposeHooks := s.disposeHooks.filter (fun h => h ≠ sc) }

/-- A scalar binding's private state (`useSearchParam` closure, source lines
155-157): the name, the serializer pair, the raw cache `writableValue` and
the typed cache `readableValue`. -/
structure ScalarBinding (T : Type) where
  name : String
  read : Option String → T
  write : T → Option String
  writableValue : Option String
  readableValue : T

/-- Result of creating a scalar binding: the closure state, whether a watch
subscription on the shared ref was registered, and the system state after the
`listenPopstate()` call. -/
structure ScalarCreateResult (T : Type) where
  binding : ScalarBinding T
  subscribed : Bool
  sys : Sys

/-- `useSearchParam` creation (source lines 143-176): initialize the raw
cache from `searchParams.get(name)`, the typed cache with `serializer.read`,
register the watch only on the client, and call `listenPopstate()`. -/
def useSearchParam (T : Type) (isClient : Bool) (currentScope : Option Nat)
    (s : Sys) (name : String) (read : Option String → T)
    (write : T → Option String) : ScalarCreateResult T :=
  let writableValue := getParam s.searchParams name
  let readableValue := read writableValue
  { binding :=
      { name := name, read := read, write := write
        writableValue := writableValue, readableValue := readableValue }
    subscribed := isClient
    sys := listenPopstate isClient currentScope s }

/-- The scalar watch callback (source lines 162-169): recompute the candidate
raw value; when strictly equal to the cached raw value do nothing, otherwise
update both caches and trigger. Returns the new closure state and whether the
binding's observers were triggered. -/
def scalarWatchCb (T : Type) (s : Sys) (b : ScalarBinding T) :
    ScalarBinding T × Bool :=
  let newWritableValue := getParam s.searchParams b.name
  if newWritableValue = b.writableValue then (b, false)
  else
    ({ b with
        readableValue := b.read newWritableValue
        writableValue := newWritableValue }, true)

/-- Result of a scalar or array `set`: the system state, the binding closure
state, whether the binding's own observers were triggered, and whether a
deferred `navigate` call was scheduled via `nextTick`. -/
structure SetResult (B : Type) where
  sys : Sys
  binding : B
  triggered : Bool
  navScheduled : Bool

/-- The scalar `set` trap (source lines 183-200): serialize, bail out when
equal to the cached raw value, otherwise update both caches, then mutate the
shared `URLSearchParams` in place — `set` when the new raw value is a string,
`delete` otherwise — trigger, and on the client schedule the deferred
navigate. The object identity `spId` is unchanged because the object is
mutated, not replaced. -/
def scalarSet (T : Type) (isClient : Bool) (s : Sys) (b : ScalarBinding T)
    (v : T) : SetResult (ScalarBinding T) :=
  let newWritableValue := b.write v
  if newWritableValue = b.writableValue then
    { sys := s, binding := b, triggered := false, navScheduled := false }
  else
    let b1 := { b with readableValue := v, writableValue := newWritableValue }
    let params1 :=
      match newWritableValue with
      | some str => setParam s.searchParams b.name str
      | none => deleteParam s.searchParams b.name
    { sys := { s with searchParams := params1 }
      binding := b1
      triggered := true
      navScheduled := isClient }

/-- A scalar `set` together with the synchronous effect of
`triggerRef(_internal.searchParams)` on the binding's own watch (registered
only on the client, flush sync): when the set triggered and the watch exists,
the watch callback runs against the updated shared state. -/
def scalarSetFull (T : Type) (isClient : Bool) (s : Sys) (b : ScalarBinding T)
    (v : T) : SetResult (ScalarBinding T) :=
  let r := scalarSet T isClient s b v
  if r.triggered && isClient then
    { r with binding := (scalarWatchCb T r.sys r.binding).1 }
  else r

/-- `isEqualArrays` (source lines 205-211): same length and pairwise strict
equality, order-sensitive. -/
def isEqualArrays (T : Type) [DecidableEq T] (a b : List T) : Bool :=
  if a.length ≠ b.length then false
  else (List.zip a b).all (fun p => p.1 = p.2)

/-- An array binding's private state (`useSearchParamArray` closure, source
lines 293-295). -/
structure ArrayBinding (T : Type) where
  name : String
  read : String → T
  write : T → String
  writableValue : List String
  readableValue : List T

/-- Result of creating an array binding. -/
structure ArrayCreateResult (T : Type) where
  binding : ArrayBinding T
  subscribed : Bool
  sys : Sys

/-- `useSearchParamArray` creation (source lines 281-314): raw cache from
`getAll`, typed cache the element-wise read, watch only on the client,
`listenPopstate()` call. -/
def useSearchParamArray (T : Type) (isClient : Bool) (currentScope : Option Nat)
    (s : Sys) (name : String) (read : String → T)
    (write : T → String) : ArrayCreateResult T :=
  let writableValue := getAllParams s.searchParams name
  let readableValue := writableValue.map read
  { binding :=
      { name := name, read := read, write := write
        writableValue := writableValue, readableValue := readableValue }
    subscribed := isClient
    sys := listenPopstate isClient currentScope s }

/-- The array watch callback (source lines 300-307): recompute `getAll`; when
list-equal to the cached raw list do nothing, otherwise update both caches
and trigger. -/
def arrayWatchCb (T : Type) (s : Sys) (b : ArrayBinding T) :
    ArrayBinding T × Bool :=
  let newWritableValue := getAllParams s.searchParams b.name
  if isEqualArrays String newWritableValue b.writableValue then (b, false)
  else
    ({ b with
        readableValue := newWritableValue.map b.read
        writableValue := newWritableValue }, true)

/-- The array `set` trap (source lines 321-337): serialize element-wise, bail
out on list equality with the cached raw list, otherwise update both caches,
then mutate the shared `URLSearchParams` in place — `delete` all occurrences
of the name, then `append` each new value in order — trigger, and on the
client schedule the deferred navigate. -/
def arraySet (T : Type) (isClient : Bool) (s : Sys) (b : ArrayBinding T)
    (vs : List T) : SetResult (ArrayBinding T) :=
  let newWritableValue := vs.map b.write
  if isEqualArrays String newWritableValue b.writableValue then
    { sys := s, binding := b, triggered := false, navScheduled := false }
  else
    let b1 := { b with readableValue := vs, writableValue := newWritableValue }
    let params1 := newWritableValue.foldl
      (fun acc value => appendParam acc b.name value)
      (deleteParam s.searchParams b.name)
    { sys := { s with searchParams := params1 }
      binding := b1
      triggered := true
      navScheduled := isClient }

/-- An array `set` together with the synchronous effect of `triggerRef` on
the binding's own watch, as in `scalarSetFull`. -/
def arraySetFull (T : Type) (isClient : Bool) (s : Sys) (b : ArrayBinding T)
    (vs : List T) : SetResult (ArrayBinding T) :=
  let r := arraySet T isClient s b vs
  if r.triggered && isClient then
    { r with binding := (arrayWatchCb T r.sys r.binding).1 }
  else r

/-- A sequence of `listenPopstate` calls, each from some current scope, as
performed by successive binding creations. -/
def applyListenCalls (isClient : Bool) (calls : List (Option Nat)) (s : Sys) : Sys :=
  calls.foldl (fun st sc => listenPopstate isClient sc st) s

/-- Lifecycle events for the listener: a binding creation in some (or no)
current scope, or the disposal of a reactive scope. -/
inductive Ev where
  | create (scope : Option Nat)
  | dispose (sc : Nat)
deriving Repr, DecidableEq

/-- World state for lifecycle runs: the system, the scopes still alive, and
the owning scope of each binding created so far. -/
structure World where
  sys : Sys
  alive : List Nat
  bindingScopes : List (Option Nat)
deriving Repr, DecidableEq

/-- One lifecycle event: a creation calls `listenPopstate` from its scope and
records the binding's owning scope; a scope disposal runs the registered
hooks and removes the scope from the alive set. -/
def stepEv (isClient : Bool) (w : World) : Ev → World
  | .create sc =>
    { w with
        sys := listenPopstate isClient sc w.sys
        bindingScopes := w.bindingScopes ++ [sc] }
  | .dispose sc =>
    { w with
        sys := disposeScope sc w.sys
        alive := w.alive.filter (fun a => a ≠ sc) }

/-- Run a list of lifecycle events. -/
def runEvents (isClient : Bool) (w : World) (evs : List Ev) : World :=
  evs.foldl (stepEv isClient) w

/-! ### Helper lemmas about the multimap operations -/

theorem isEqualArrays_self (T : Type) [DecidableEq T] (a : List T) :
    isEqualArrays T a a = true := by
  have hz : ∀ l : List T, (List.zip l l).all (fun p => decide (p.1 = p.2)) = true := by
    intro l
    induction l with
    | nil => rfl
    | cons x xs ih => simpa using ih
  unfold isEqualArrays
  rw [if_neg (by simp)]
  exact hz a

theorem isEqualArrays_eq_true_iff (T : Type) [DecidableEq T] :
    ∀ a b : List T, isEqualArrays T a b = true ↔ a = b := by
  intro a
  induction a with
  | nil =>
    intro b
    cases b with
    | nil => simp [isEqualArrays]
    | cons y ys => simp [isEqualArrays]
  | cons x xs ih =>
    intro b
    cases b with
    | nil => simp [isEqualArrays]
    | cons y ys =>
      constructor
      · intro h
        unfold isEqualArrays at h
        by_cases hl : (x :: xs).length = (y :: ys).length
        · rw [if_neg (not_not.mpr hl)] at h
          simp only [List.zip_cons_cons, List.all_cons, Bool.and_eq_true] at h
          have hx : x = y := by simpa using h.1
          have hlen : xs.length = ys.length := by
            simp only [List.length_cons] at hl
            omega
          have hxs : xs = ys := by
            apply (ih ys).mp
            unfold isEqualArrays
            rw [if_neg (not_not.mpr hlen)]
            exact h.2
          rw [hx, hxs]
        · rw [if_pos hl] at h
          exact absurd h (by simp)
      · intro h
        rw [h]
        exact isEqualArrays_self T (y :: ys)

theorem getAllParams_nil (n : String) : getAllParams [] n = [] := rfl

theorem getAllParams_cons (p : String × String) (l : List (String × String))
    (n : String) :
    getAllParams (p :: l) n =
      (if p.1 = n then p.2 :: getAllParams l n else getAllParams l n) := by
  simp only [getAllParams, List.filterMap_cons]
  by_cases h : p.1 = n <;> simp [h]

theorem getAllParams_append (l l2 : List (String × String)) (n : String) :
    getAllParams (l ++ l2) n = getAllParams l n ++ getAllParams l2 n := by
  simp [getAllParams, List.filterMap_append]

theorem deleteParam_cons (p : String × String) (l : List (String × String))
    (n : String) :
    deleteParam (p :: l) n =
      (if p.1 = n then deleteParam l n else p :: deleteParam l n) := by
  simp only [deleteParam, List.filter_cons]
  by_cases h : p.1 = n <;> simp [h]

theorem getAllParams_deleteParam_self (l : List (String × String)) (n : String) :
    getAllParams (deleteParam l n) n = [] := by
  induction l with
  | nil => rfl
  | cons p rest ih =>
    rw [deleteParam_cons]
    by_cases hp : p.1 = n
    · rw [if_pos hp]
      exact ih
    · rw [if_neg hp, getAllParams_cons, if_neg hp]
      exact ih

theorem getAllParams_deleteParam_other (l : List (String × String))
    (n m : String) (h : m ≠ n) :
    getAllParams (deleteParam l n) m = getAllParams l m := by
  induction l with
  | nil => rfl
  | cons p rest ih =>
    rw [deleteParam_cons, getAllParams_cons]
    by_cases hp : p.1 = n
    · have hpm : ¬p.1 = m := by
        rw [hp]
        exact Ne.symm h
      rw [if_pos hp, if_neg hpm]
      exact ih
    · rw [if_neg hp, getAllParams_cons]
      by_cases hpm : p.1 = m
      · rw [if_pos hpm, if_pos hpm, ih]
      · rw [if_neg hpm, if_neg hpm, ih]

theorem getAllParams_setParam_self (l : List (String × String))
    (n v : String) :
    getAllParams (setParam l n v) n = [v] := by
  induction l with
  | nil => simp [setParam, getAllParams_cons, getAllParams_nil]
  | cons p rest ih =>
    obtain ⟨k, w⟩ := p
    by_cases h : k = n
    · simp only [setParam]
      rw [if_pos h, getAllParams_cons]
      simp [getAllParams_deleteParam_self]
    · simp only [setParam, h, if_false, getAllParams_cons]
      simpa [h] using ih

theorem getAllParams_setParam_other (l : List (String × String))
    (n v m : String) (h : m ≠ n) :
    getAllParams (setParam l n v) m = getAllParams l m := by
  have hnm : ¬n = m := Ne.symm h
  induction l with
  | nil => simp [setParam, getAllParams_cons, getAllParams_nil, hnm]
  | cons p rest ih =>
    obtain ⟨k, w⟩ := p
    by_cases hk : k = n
    · have hkm : ¬k = m := by
        rw [hk]
        exact hnm
      simp only [setParam]
      rw [if_pos hk, getAllParams_cons]
      simp [hnm, hkm, getAllParams_cons,
        getAllParams_deleteParam_other rest n m h]
    · simp only [setParam, hk, if_false]
      rw [getAllParams_cons, getAllParams_cons, ih]

theorem getParam_eq_head (l : List (String × String)) (n : String) :
    getParam l n = (getAllParams l n).head? := by
  induction l with
  | nil => rfl
  | cons p rest ih =>
    rw [getAllParams_cons]
    by_cases h : p.1 = n
    · simp [getParam, List.find?_cons, h]
    · simpa [getParam, List.find?_cons, h] using ih

theorem getParam_setParam_self (l : List (String × String)) (n v : String) :
    getParam (setParam l n v) n = some v := by
  rw [getParam_eq_head, getAllParams_setParam_self]
  rfl

theorem getParam_deleteParam_self (l : List (String × String)) (n : String) :
    getParam (deleteParam l n) n = none := by
  rw [getParam_eq_head, getAllParams_deleteParam_self]
  rfl

theorem getAllParams_appendParam_self (l : List (String × String))
    (n v : String) :
    getAllParams (appendParam l n v) n = getAllParams l n ++ [v] := by
  simp [appendParam, getAllParams_append, getAllParams_cons, getAllParams_nil]

theorem getAllParams_appendParam_other (l : List (String × String))
    (n v m : String) (h : m ≠ n) :
    getAllParams (appendParam l n v) m = getAllParams l m := by
  simp [appendParam, getAllParams_append, getAllParams_cons, getAllParams_nil,
    Ne.symm h]

theorem getAllParams_foldl_append_self (vs : List String)
    (d : List (String × String)) (n : String) :
    getAllParams
      (vs.foldl (fun acc value => appendParam acc n value) d) n =
      getAllParams d n ++ vs := by
  induction vs generalizing d with
  | nil => simp
  | cons v rest ih =>
    rw [List.foldl_cons, ih, getAllParams_appendParam_self]
    simp

theorem getAllParams_foldl_append_other (vs : List String)
    (d : List (String × String)) (n m : String) (h : m ≠ n) :
    getAllParams
      (vs.foldl (fun acc value => appendParam acc n value) d) m =
      getAllParams d m := by
  induction vs generalizing d with
  | nil => rfl
  | cons v rest ih =>
    rw [List.foldl_cons, ih, getAllParams_appendParam_other d n v m h]

/-! ### Unfolding lemmas for the set traps and watch callbacks -/

theorem scalarSet_eq_of_ne (T : Type) (c : Bool) (s : Sys) (b : ScalarBinding T)
    (v : T) (hne : b.write v ≠ b.writableValue) :
    scalarSet T c s b v =
      { sys := { s with searchParams :=
          (match b.write v with
          | some str => setParam s.searchParams b.name str
          | none => deleteParam s.searchParams b.name) }
        binding := { b with readableValue := v, writableValue := b.write v }
        triggered := true
        navScheduled := c } := by
  simp only [scalarSet]
  rw [if_neg hne]

theorem scalarSet_eq_of_eq (T : Type) (c : Bool) (s : Sys) (b : ScalarBinding T)
    (v : T) (heq : b.write v = b.writableValue) :
    scalarSet T c s b v =
      { sys := s, binding := b, triggered := false, navScheduled := false } := by
  simp only [scalarSet]
  rw [if_pos heq]

theorem arraySet_eq_of_ne (T : Type) (c : Bool) (s : Sys) (b : ArrayBinding T)
    (vs : List T)
    (hne : isEqualArrays String (vs.map b.write) b.writableValue = false) :
    arraySet T c s b vs =
      { sys := { s with searchParams :=
          ((vs.map b.write).foldl
            (fun acc value => appendParam acc b.name value)
            (deleteParam s.searchParams b.name)) }
        binding := { b with readableValue := vs, writableValue := vs.map b.write }
        triggered := true
        navScheduled := c } := by
  simp only [arraySet]
  rw [if_neg (by simp [hne])]

theorem arraySet_eq_of_eq (T : Type) (c : Bool) (s : Sys) (b : ArrayBinding T)
    (vs : List T)
    (heq : isEqualArrays String (vs.map b.write) b.writableValue = true) :
    arraySet T c s b vs =
      { sys := s, binding := b, triggered := false, navScheduled := false } := by
  simp only [arraySet]
  rw [if_pos heq]

theorem scalarWatchCb_of_eq (T : Type) (s : Sys) (b : ScalarBinding T)
    (h : getParam s.searchParams b.name = b.writableValue) :
    scalarWatchCb T s b = (b, false) := by
  simp only [scalarWatchCb]
  rw [if_pos h]

theorem arrayWatchCb_of_eq (T : Type) (s : Sys) (b : ArrayBinding T)
    (h : isEqualArrays String (getAllParams s.searchParams b.name)
      b.writableValue = true) :
    arrayWatchCb T s b = (b, false) := by
  simp only [arrayWatchCb]
  rw [if_pos h]

theorem scalarSetFull_eq_of_ne (T : Type) (c : Bool) (s : Sys)
    (b : ScalarBinding T) (v : T) (hne : b.write v ≠ b.writableValue) :
    scalarSetFull T c s b v = scalarSet T c s b v := by
  unfold scalarSetFull
  rw [scalarSet_eq_of_ne T c s b v hne]
  cases c with
  | false => simp
  | true =>
    have hw : getParam
        (match b.write v with
          | some str => setParam s.searchParams b.name str
          | none => deleteParam s.searchParams b.name) b.name = b.write v := by
      cases hbv : b.write v with
      | some str => simp [getParam_setParam_self]
      | none => simp [getParam_deleteParam_self]
    simp only [Bool.and_self, if_true]
    rw [scalarWatchCb_of_eq T _ _ hw]

theorem arraySetFull_eq_of_ne (T : Type) (c : Bool) (s : Sys)
    (b : ArrayBinding T) (vs : List T)
    (hne : isEqualArrays String (vs.map b.write) b.writableValue = false) :
    arraySetFull T c s b vs = arraySet T c s b vs := by
  unfold arraySetFull
  rw [arraySet_eq_of_ne T c s b vs hne]
  cases c with
  | false => simp
  | true =>
    have hw : getAllParams
        ((vs.map b.write).foldl
          (fun acc value => appendParam acc b.name value)
          (deleteParam s.searchParams b.name)) b.name = vs.map b.write := by
      rw [getAllParams_foldl_append_self, getAllParams_deleteParam_self]
      simp
    simp only [Bool.and_self, if_true]
    rw [arrayWatchCb_of_eq T _ _ (by rw [hw]; exact isEqualArrays_self String _)]

theorem scalarSetFull_eq_of_eq (T : Type) (c : Bool) (s : Sys)
    (b : ScalarBinding T) (v : T) (heq : b.write v = b.writableValue) :
    scalarSetFull T c s b v =
      { sys := s, binding := b, triggered := false, navScheduled := false } := by
  unfold scalarSetFull
  rw [scalarSet_eq_of_eq T c s b v heq]
  simp

theorem arraySetFull_eq_of_eq (T : Type) (c : Bool) (s : Sys)
    (b : ArrayBinding T) (vs : List T)
    (heq : isEqualArrays String (vs.map b.write) b.writableValue = true) :
    arraySetFull T c s b vs =
      { sys := s, binding := b, triggered := false, navScheduled := false } := by
  unfold arraySetFull
  rw [arraySet_eq_of_eq T c s b vs heq]
  simp

/-! ### Concrete instances used by witnesses and counterexamples -/

/-- A scalar binding with the default identity serializer and the given raw
cache value (typed cache in sync). -/
def idScalarBinding (raw : Option String) : ScalarBinding (Option String) :=
  { name := "n", read := fun x => x, write := fun x => x
    writableValue := raw, readableValue := raw }

/-- An array binding with the default identity serializer and the given raw
cache list (typed cache in sync). -/
def idArrayBinding (raw : List String) : ArrayBinding String :=
  { name := "n", read := fun x => x, write := fun x => x
    writableValue := raw, readableValue := raw }

/-! ### Claim theorems -/

/-- C3: for a scalar binding, an effective write whose serialized form is the
empty string leaves the name present in the shared query state mapped to the
empty string, an effective write whose serialized form is any string leaves
the name mapped to exactly that string (so only a non-string write deletes
the key), and an effective write whose serialized form is null removes the
name entirely. -/
theorem scalar_empty_string_vs_null_write
    (T : Type) (c : Bool) (s : Sys) (b : ScalarBinding T) (v : T)
    (hne : b.write v ≠ b.writableValue) :
    (b.write v = some "" →
      getAllParams (scalarSet T c s b v).sys.searchParams b.name = [""]) ∧
    (∀ str : String, b.write v = some str →
      getAllParams (scalarSet T c s b v).sys.searchParams b.name = [str]) ∧
    (b.write v = none →
      getAllParams (scalarSet T c s b v).sys.searchParams b.name = []) := by
  rw [scalarSet_eq_of_ne T c s b v hne]
  refine ⟨fun h => ?_, fun str h => ?_, fun h => ?_⟩
  · simp only [h]
    simp [getAllParams_setParam_self]
  · simp only [h]
    simp [getAllParams_setParam_self]
  · simp only [h]
    simp [getAllParams_deleteParam_self]

/-- Witness for C3 at the identity serializer: writing the empty string to a
binding cached at "x" keeps the key with an empty value, writing null removes
it. -/
theorem scalar_empty_string_vs_null_write_witness :
    getAllParams
      (scalarSet (Option String) true (mkInitial [("n", "x")])
        (idScalarBinding (some "x")) (some "")).sys.searchParams "n" = [""] ∧
    getAllParams
      (scalarSet (Option String) true (mkInitial [("n", "x")])
        (idScalarBinding (some "x")) none).sys.searchParams "n" = [] :=
  ⟨(scalar_empty_string_vs_null_write (Option String) true
      (mkInitial [("n", "x")]) (idScalarBinding (some "x")) (some "")
      (by decide)).1 rfl,
   (scalar_empty_string_vs_null_write (Option String) true
      (mkInitial [("n", "x")]) (idScalarBinding (some "x")) none
      (by decide)).2.2 rfl⟩

/-- C4: for an array binding, an effective write of the list vs makes the
shared query state's values for the name exactly the element-wise
serialization of vs, in order (all prior occurrences removed, then each new
value appended); the empty list therefore removes every occurrence. -/
theorem array_write_sets_exact_values
    (T : Type) (c : Bool) (s : Sys) (b : ArrayBinding T) (vs : List T)
    (hne : isEqualArrays String (vs.map b.write) b.writableValue = false) :
    getAllParams (arraySet T c s b vs).sys.searchParams b.name =
      vs.map b.write := by
  rw [arraySet_eq_of_ne T c s b vs hne]
  show getAllParams
      ((vs.map b.write).foldl
        (fun acc value => appendParam acc b.name value)
        (deleteParam s.searchParams b.name)) b.name = vs.map b.write
  rw [getAllParams_foldl_append_self, getAllParams_deleteParam_self]
  simp

/-- Witness for C4: replacing a previously multi-valued key with the list
consisting of "c" yields exactly that list, and writing the empty list
removes every occurrence. -/
theorem array_write_sets_exact_values_witness :
    getAllParams
      (arraySet String true (mkInitial [("n", "a"), ("m", "q"), ("n", "b")])
        (idArrayBinding ["a", "b"]) ["c"]).sys.searchParams "n" = ["c"] ∧
    getAllParams
      (arraySet String true (mkInitial [("n", "a"), ("m", "q"), ("n", "b")])
        (idArrayBinding ["a", "b"]) []).sys.searchParams "n" = [] :=
  ⟨array_write_sets_exact_values String true
      (mkInitial [("n", "a"), ("m", "q"), ("n", "b")])
      (idArrayBinding ["a", "b"]) ["c"] (by decide),
   array_write_sets_exact_values String true
      (mkInitial [("n", "a"), ("m", "q"), ("n", "b")])
      (idArrayBinding ["a", "b"]) [] (by decide)⟩

/-- C6: a write whose serialized form equals the cached raw value (strict
equality for scalars, order-sensitive list equality for arrays) is a complete
no-op even after the synchronous watch flush: the shared query state (object
identity, contents, and the listener flag), both caches, the trigger, and the
deferred navigation scheduling are all unchanged. -/
theorem noop_write_changes_nothing
    (T U : Type) (c : Bool) (s : Sys) (b : ScalarBinding T) (v : T)
    (a : ArrayBinding U) (ws : List U)
    (hs : b.write v = b.writableValue)
    (ha : isEqualArrays String (ws.map a.write) a.writableValue = true) :
    scalarSetFull T c s b v =
      { sys := s, binding := b, triggered := false, navScheduled := false } ∧
    arraySetFull U c s a ws =
      { sys := s, binding := a, triggered := false, navScheduled := false } :=
  ⟨scalarSetFull_eq_of_eq T c s b v hs, arraySetFull_eq_of_eq U c s a ws ha⟩

/-- Witness for C6 at the identity serializer: rewriting the cached value is
a no-op for both binding kinds. -/
theorem noop_write_changes_nothing_witness :
    scalarSetFull (Option String) true (mkInitial [("n", "x")])
        (idScalarBinding (some "x")) (some "x") =
      { sys := mkInitial [("n", "x")], binding := idScalarBinding (some "x")
        triggered := false, navScheduled := false } ∧
    arraySetFull String true (mkInitial [("n", "x")])
        (idArrayBinding ["x"]) ["x"] =
      { sys := mkInitial [("n", "x")], binding := idArrayBinding ["x"]
        triggered := false, navScheduled := false } :=
  noop_write_changes_nothing (Option String) String true
    (mkInitial [("n", "x")]) (idScalarBinding (some "x")) (some "x")
    (idArrayBinding ["x"]) ["x"] rfl (by decide)

/-- C10: a scalar or array binding write never touches another name: for
every name m distinct from the binding's name, the shared query state's
values for m (and their order) after the write equal those before it, in
both the effective and the no-op case. -/
theorem write_preserves_other_names
    (T U : Type) (c : Bool) (s : Sys) (b : ScalarBinding T) (v : T)
    (a : ArrayBinding U) (ws : List U) (m : String)
    (hb : m ≠ b.name) (ha : m ≠ a.name) :
    getAllParams (scalarSet T c s b v).sys.searchParams m =
      getAllParams s.searchParams m ∧
    getAllParams (arraySet U c s a ws).sys.searchParams m =
      getAllParams s.searchParams m := by
  constructor
  · by_cases h : b.write v = b.writableValue
    · rw [scalarSet_eq_of_eq T c s b v h]
    · rw [scalarSet_eq_of_ne T c s b v h]
      cases hbv : b.write v with
      | some str => simp [getAllParams_setParam_other s.searchParams b.name str m hb]
      | none => simp [getAllParams_deleteParam_other s.searchParams b.name m hb]
  · cases h : isEqualArrays String (ws.map a.write) a.writableValue with
    | true => rw [arraySet_eq_of_eq U c s a ws h]
    | false =>
      rw [arraySet_eq_of_ne U c s a ws h]
      show getAllParams
          ((ws.map a.write).foldl
            (fun acc value => appendParam acc a.name value)
            (deleteParam s.searchParams a.name)) m =
        getAllParams s.searchParams m
      rw [getAllParams_foldl_append_other _ _ _ _ ha,
        getAllParams_deleteParam_other _ _ _ ha]

/-- Witness for C10: writes to name "n" leave the values of name "m"
untouched for both binding kinds. -/
theorem write_preserves_other_names_witness :
    getAllParams
      (scalarSet (Option String) true
        (mkInitial [("m", "q"), ("n", "a")])
        (idScalarBinding (some "a")) (some "b")).sys.searchParams "m" =
      getAllParams (mkInitial [("m", "q"), ("n", "a")]).searchParams "m" ∧
    getAllParams
      (arraySet String true
        (mkInitial [("m", "q"), ("n", "a")])
        (idArrayBinding ["a"]) ["b", "c"]).sys.searchParams "m" =
      getAllParams (mkInitial [("m", "q"), ("n", "a")]).searchParams "m" :=
  write_preserves_other_names (Option String) String true
    (mkInitial [("m", "q"), ("n", "a")])
    (idScalarBinding (some "a")) (some "b")
    (idArrayBinding ["a"]) ["b", "c"] "m" (by decide) (by decide)

/-- C5: when the shared query state changes in a way that leaves a binding's
own slice unchanged — for a scalar, the new first value strictly equals the
cached raw value (including both null); for an array, the new value list is
length- and element-wise equal to the cached raw list — the binding's watch
callback does not trigger its observers and leaves both caches (the whole
closure state) unchanged; in particular a change confined to another name
never fires a binding's observers. -/
theorem watch_no_fire_when_slice_unchanged
    (T U : Type) (s : Sys) (b : ScalarBinding T) (a : ArrayBinding U)
    (hs : getParam s.searchParams b.name = b.writableValue)
    (ha : isEqualArrays String (getAllParams s.searchParams a.name)
      a.writableValue = true) :
    scalarWatchCb T s b = (b, false) ∧ arrayWatchCb U s a = (a, false) :=
  ⟨scalarWatchCb_of_eq T s b hs, arrayWatchCb_of_eq U s a ha⟩

/-- Witness for C5: after a state replacement that only changed name "m",
bindings on name "n" do not fire. -/
theorem watch_no_fire_when_slice_unchanged_witness :
    scalarWatchCb (Option String) (mkInitial [("m", "zz"), ("n", "a")])
      (idScalarBinding (some "a")) = (idScalarBinding (some "a"), false) ∧
    arrayWatchCb String (mkInitial [("m", "zz"), ("n", "a")])
      (idArrayBinding ["a"]) = (idArrayBinding ["a"], false) :=
  watch_no_fire_when_slice_unchanged (Option String) String
    (mkInitial [("m", "zz"), ("n", "a")])
    (idScalarBinding (some "a")) (idArrayBinding ["a"])
    (by decide) (by decide)

/-- C9: with no navigable client context (isClient = false), the whole write
and lifecycle surface degrades to no-ops while the read path still works:
`listenPopstate` leaves the state untouched (no listener, no flag), binding
creation subscribes nothing and still initializes both caches from the
shared state, and a write schedules no navigation call. -/
theorem server_side_noops
    (T U : Type) (scope : Option Nat) (s : Sys) (name aname : String)
    (read : Option String → T) (write : T → Option String)
    (aread : String → U) (awrite : U → String)
    (b : ScalarBinding T) (v : T) (a : ArrayBinding U) (ws : List U) :
    listenPopstate false scope s = s ∧
    (useSearchParam T false scope s name read write).subscribed = false ∧
    (useSearchParam T false scope s name read write).sys = s ∧
    (useSearchParam T false scope s name read write).binding.readableValue =
      read (getParam s.searchParams name) ∧
    (useSearchParamArray U false scope s aname aread awrite).subscribed = false ∧
    (useSearchParamArray U false scope s aname aread awrite).sys = s ∧
    (useSearchParamArray U false scope s aname aread awrite).binding.readableValue =
      (getAllParams s.searchParams aname).map aread ∧
    (scalarSet T false s b v).navScheduled = false ∧
    (arraySet U false s a ws).navScheduled = false := by
  have hl : listenPopstate false scope s = s := by
    simp [listenPopstate]
  refine ⟨hl, rfl, ?_, rfl, rfl, ?_, rfl, ?_, ?_⟩
  · show listenPopstate false scope s = s
    exact hl
  · show listenPopstate false scope s = s
    exact hl
  · by_cases h : b.write v = b.writableValue
    · rw [scalarSet_eq_of_eq T false s b v h]
    · rw [scalarSet_eq_of_ne T false s b v h]
  · cases h : isEqualArrays String (ws.map a.write) a.writableValue with
    | true => rw [arraySet_eq_of_eq U false s a ws h]
    | false => rw [arraySet_eq_of_ne U false s a ws h]

/-- A scalar binding whose serializer does not round-trip: every value
serializes to "x" and every raw value reads back as 0. -/
def lossyScalarBinding : ScalarBinding Nat :=
  { name := "n", read := fun _ => 0, write := fun _ => some "x"
    writableValue := none, readableValue := 0 }

/-- C1 counterexample: with the non-round-tripping serializer
`lossyScalarBinding`, writing 5 (an effective write: "x" differs from the
cached null) and letting the synchronous flush run leaves the typed value at
5, whereas the claim predicts read(write(5)) = 0. -/
theorem scalar_readback_not_roundtrip_cx :
    ¬ ((scalarSetFull Nat true (mkInitial []) lossyScalarBinding 5).binding.readableValue =
        lossyScalarBinding.read (lossyScalarBinding.write 5)) := by
  decide

/-- C1 amended: after an effective write (serialized form differing from the
cached raw value) and the flush, the binding's typed value is the written
value itself — not read(write v) unless the serializer round-trips — and the
raw cache is the serialized form, for both scalar and array bindings. -/
theorem write_readback_is_input_value
    (T U : Type) (c : Bool) (s : Sys) (b : ScalarBinding T) (v : T)
    (a : ArrayBinding U) (ws : List U)
    (hs : b.write v ≠ b.writableValue)
    (ha : isEqualArrays String (ws.map a.write) a.writableValue = false) :
    (scalarSetFull T c s b v).binding.readableValue = v ∧
    (scalarSetFull T c s b v).binding.writableValue = b.write v ∧
    (arraySetFull U c s a ws).binding.readableValue = ws ∧
    (arraySetFull U c s a ws).binding.writableValue = ws.map a.write := by
  rw [scalarSetFull_eq_of_ne T c s b v hs, scalarSet_eq_of_ne T c s b v hs,
    arraySetFull_eq_of_ne U c s a ws ha, arraySet_eq_of_ne U c s a ws ha]
  exact ⟨rfl, rfl, rfl, rfl⟩

/-- Witness for the amended C1 at the identity serializer. -/
theorem write_readback_is_input_value_witness :
    (scalarSetFull (Option String) true (mkInitial [("n", "a")])
      (idScalarBinding (some "a")) (some "b")).binding.readableValue = some "b" ∧
    (scalarSetFull (Option String) true (mkInitial [("n", "a")])
      (idScalarBinding (some "a")) (some "b")).binding.writableValue =
      (idScalarBinding (some "a")).write (some "b") ∧
    (arraySetFull String true (mkInitial [("n", "a")])
      (idArrayBinding ["a"]) ["b", "c"]).binding.readableValue = ["b", "c"] ∧
    (arraySetFull String true (mkInitial [("n", "a")])
      (idArrayBinding ["a"]) ["b", "c"]).binding.writableValue =
      (["b", "c"] : List String).map (idArrayBinding ["a"]).write :=
  write_readback_is_input_value (Option String) String true
    (mkInitial [("n", "a")]) (idScalarBinding (some "a")) (some "b")
    (idArrayBinding ["a"]) ["b", "c"] (by decide) (by decide)

/-- C2 counterexample: a scalar binding write changes the shared multimap's
contents while preserving the shared URLSearchParams object's identity
(spId), i.e. the shared multimap object is mutated in place rather than
replaced wholesale. -/
theorem shared_state_mutated_in_place_cx :
    (scalarSet (Option String) true (mkInitial [("n", "a")])
      (idScalarBinding (some "a")) (some "b")).sys.spId =
      (mkInitial [("n", "a")]).spId ∧
    (scalarSet (Option String) true (mkInitial [("n", "a")])
      (idScalarBinding (some "a")) (some "b")).sys.searchParams ≠
      (mkInitial [("n", "a")]).searchParams := by
  decide

/-- C2 amended: binding writes (scalar and array) mutate the shared multimap
object in place, preserving its identity, and explicitly trigger the shared
ref; only a navigation (popstate) event constructs a new multimap and
replaces the shared state wholesale, with a fresh identity. -/
theorem binding_writes_mutate_in_place
    (T U : Type) (c : Bool) (s : Sys) (b : ScalarBinding T) (v : T)
    (a : ArrayBinding U) (ws : List U) (newParams : List (String × String)) :
    (scalarSet T c s b v).sys.spId = s.spId ∧
    (arraySet U c s a ws).sys.spId = s.spId ∧
    (onPopstate s newParams).spId = s.spId + 1 ∧
    (onPopstate s newParams).searchParams = newParams := by
  refine ⟨?_, ?_, rfl, rfl⟩
  · by_cases h : b.write v = b.writableValue
    · rw [scalarSet_eq_of_eq T c s b v h]
    · rw [scalarSet_eq_of_ne T c s b v h]
  · cases h : isEqualArrays String (ws.map a.write) a.writableValue with
    | true => rw [arraySet_eq_of_eq U c s a ws h]
    | false => rw [arraySet_eq_of_ne U c s a ws h]

/-! ### Listener lifecycle lemmas -/

theorem listenPopstate_not_client (sc : Option Nat) (s : Sys) :
    listenPopstate false sc s = s := by
  simp [listenPopstate]

theorem listenPopstate_of_listening (c : Bool) (sc : Option Nat) (s : Sys)
    (h : s.isListeningPopsate = true) :
    listenPopstate c sc s = s := by
  simp [listenPopstate, h]

theorem listenPopstate_listening_true (sc : Option Nat) (s : Sys) :
    (listenPopstate true sc s).isListeningPopsate = true := by
  by_cases h : s.isListeningPopsate = true
  · rw [listenPopstate_of_listening true sc s h]
    exact h
  · cases sc <;> simp [listenPopstate, h]

theorem listenPopstate_install_count (sc : Option Nat) (s : Sys)
    (h : s.isListeningPopsate = false) :
    (listenPopstate true sc s).popstateListeners = s.popstateListeners + 1 := by
  cases sc <;> simp [listenPopstate, h]

theorem applyListenCalls_le_one (c : Bool) (calls : List (Option Nat)) (s : Sys)
    (h0 : s.isListeningPopsate = false → s.popstateListeners = 0)
    (h1 : s.popstateListeners ≤ 1) :
    (applyListenCalls c calls s).popstateListeners ≤ 1 := by
  induction calls generalizing s with
  | nil => exact h1
  | cons sc rest ih =>
    show (applyListenCalls c rest (listenPopstate c sc s)).popstateListeners ≤ 1
    cases c with
    | false =>
      rw [listenPopstate_not_client sc s]
      exact ih s h0 h1
    | true =>
      by_cases hL : s.isListeningPopsate = true
      · rw [listenPopstate_of_listening true sc s hL]
        exact ih s h0 h1
      · have hF : s.isListeningPopsate = false := by
          cases hcase : s.isListeningPopsate
          · rfl
          · exact absurd hcase hL
        apply ih
        · intro hcontra
          rw [listenPopstate_listening_true sc s] at hcontra
          cases hcontra
        · rw [listenPopstate_install_count sc s hF, h0 hF]

/-- C7: the listener install is idempotent — a second call (from any scope)
after any call is the identity, a call while already installed changes
nothing, any client-side call leaves installed=true recorded, and over any
sequence of install calls starting from the initial state there is never
more than one live popstate listener. -/
theorem listen_popstate_idempotent
    (c : Bool) (sc1 sc2 : Option Nat) (s : Sys)
    (calls : List (Option Nat)) (params : List (String × String)) :
    listenPopstate c sc2 (listenPopstate c sc1 s) = listenPopstate c sc1 s ∧
    (s.isListeningPopsate = true → listenPopstate c sc1 s = s) ∧
    (c = true → (listenPopstate c sc1 s).isListeningPopsate = true) ∧
    (applyListenCalls c calls (mkInitial params)).popstateListeners ≤ 1 := by
  refine ⟨?_, listenPopstate_of_listening c sc1 s, ?_, ?_⟩
  · cases c with
    | false => rw [listenPopstate_not_client, listenPopstate_not_client]
    | true =>
      exact listenPopstate_of_listening true sc2 _
        (listenPopstate_listening_true sc1 s)
  · intro hc
    subst hc
    exact listenPopstate_listening_true sc1 s
  · exact applyListenCalls_le_one c calls (mkInitial params)
      (fun _ => rfl) (by simp [mkInitial])

/-- A system state in which the listener is already installed, used to
witness the already-installed branch of C7. -/
def listeningSys : Sys :=
  { spId := 0, searchParams := [("n", "a")], isListeningPopsate := true
    popstateListeners := 1, disposeHooks := [0] }

/-- Witness for C7 at a state with the listener installed and a concrete
call sequence from three different scopes. -/
theorem listen_popstate_idempotent_witness :
    listenPopstate true (some 1) (listenPopstate true (some 0) listeningSys) =
      listenPopstate true (some 0) listeningSys ∧
    listenPopstate true (some 0) listeningSys = listeningSys ∧
    (listenPopstate true (some 0) listeningSys).isListeningPopsate = true ∧
    (applyListenCalls true [some 0, none, some 1]
      (mkInitial [("n", "a")])).popstateListeners ≤ 1 := by
  have h := listen_popstate_idempotent true (some 0) (some 1) listeningSys
    [some 0, none, some 1] [("n", "a")]
  exact ⟨h.1, h.2.1 rfl, h.2.2.1 rfl, h.2.2.2⟩

/-- The initial world for lifecycle runs: fresh system, scopes 0 and 1 alive,
no bindings yet. -/
def w0 : World :=
  { sys := mkInitial [], alive := [0, 1], bindingScopes := [] }

/-- C8 counterexample: create a binding in scope 0 (this installs the
listener and registers the teardown hook on scope 0), create a second
binding in scope 1 (the install call is a no-op, so scope 1 gets no hook),
then dispose scope 0: the listener is removed and the flag reset although
the second binding's owning scope 1 is still alive — refuting the claim that
the listener remains installed as long as at least one binding's owning
scope is alive. -/
theorem listener_down_while_scope_alive_cx :
    (runEvents true w0
      [Ev.create (some 0), Ev.create (some 1), Ev.dispose 0]).bindingScopes =
      [some 0, some 1] ∧
    1 ∈ (runEvents true w0
      [Ev.create (some 0), Ev.create (some 1), Ev.dispose 0]).alive ∧
    (runEvents true w0
      [Ev.create (some 0), Ev.create (some 1), Ev.dispose 0]).sys.isListeningPopsate =
      false ∧
    (runEvents true w0
      [Ev.create (some 0), Ev.create (some 1), Ev.dispose 0]).sys.popstateListeners =
      0 := by
  decide

/-- C8 amended: teardown follows the installing scope, not the set of all
owning scopes: from a state without the listener, an install call from scope
sc installs it and registers the hook on sc; disposing sc removes the
listener and resets the flag (regardless of any other binding's scope), and
a later install call from any scope reinstalls it. -/
theorem listener_teardown_follows_installing_scope
    (s : Sys) (sc : Nat) (scope2 : Option Nat)
    (h1 : s.isListeningPopsate = false) (h2 : sc ∉ s.disposeHooks) :
    (listenPopstate true (some sc) s).isListeningPopsate = true ∧
    (listenPopstate true (some sc) s).popstateListeners =
      s.popstateListeners + 1 ∧
    (disposeScope sc (listenPopstate true (some sc) s)).isListeningPopsate =
      false ∧
    (disposeScope sc (listenPopstate true (some sc) s)).popstateListeners =
      s.popstateListeners ∧
    (listenPopstate true scope2
      (disposeScope sc (listenPopstate true (some sc) s))).isListeningPopsate =
      true := by
  have hfil : s.disposeHooks.filter (fun h => h = sc) = [] := by
    rw [List.filter_eq_nil_iff]
    intro a hma
    simp only [decide_eq_true_eq]
    intro he
    exact h2 (he ▸ hma)
  have hs1 : listenPopstate true (some sc) s =
      { s with
        isListeningPopsate := true
        popstateListeners := s.popstateListeners + 1
        disposeHooks := s.disposeHooks ++ [sc] } := by
    simp [listenPopstate, h1]
  rw [hs1]
  have hk : (((s.disposeHooks ++ [sc]).filter (fun h => h = sc))).length = 1 := by
    rw [List.filter_append, hfil]
    simp
  refine ⟨rfl, rfl, ?_, ?_, ?_⟩
  · simp [disposeScope, hk, hfil]
  · simp [disposeScope, hk, hfil]
  · exact listenPopstate_listening_true scope2 _

/-- Witness for the amended C8 from the fresh initial state, installing in
scope 0 and reinstalling from scope 1. -/
theorem listener_teardown_follows_installing_scope_witness :
    (listenPopstate true (some 0) (mkInitial [])).isListeningPopsate = true ∧
    (listenPopstate true (some 0) (mkInitial [])).popstateListeners =
      (mkInitial []).popstateListeners + 1 ∧
    (disposeScope 0 (listenPopstate true (some 0) (mkInitial []))).isListeningPopsate =
      false ∧
    (disposeScope 0 (listenPopstate true (some 0) (mkInitial []))).popstateListeners =
      (mkInitial []).popstateListeners ∧
    (listenPopstate true (some 1)
      (disposeScope 0 (listenPopstate true (some 0) (mkInitial [])))).isListeningPopsate =
      true :=
  listener_teardown_follows_installing_scope (mkInitial []) 0 (some 1)
    rfl (by decide)
